import Mathlib

/-! # WS2812 single-pixel effects

A shallow embedding of `ws2812_control.c`: the HSV to RGB converter
`led_strip_hsv2rgb`, the effect renderers `led_set_*` and the dispatcher
`ws2812_control_task`, followed by the properties proved about them.

Conventions of the embedding.

* `uint32_t` / `uint16_t` values are natural numbers; every C operation that
  can wrap is written with an explicit `% 2 ^ 32` / `% 2 ^ 16`.
* `float` is IEEE-754 binary32 with round-to-nearest, ties-to-even, every
  operation rounded to binary32 (the ESP32 target of the source evaluates
  `float` expressions in `float`).  Values are kept as exact non-negative
  fractions; all values that occur here are far inside the normal range of
  binary32, so the exponent range is not clamped.
* The strip driver and the RTOS are external.  A run is recorded as the list of
  calls made to them (`Call`); the driver is an oracle `List Call → Bool` that
  tells, from the calls made so far (the current one last), whether the current
  call returns `ESP_OK`.
* `while (true)` loops take a bound on the number of iterations; a run that
  reaches the bound stops with status `out_of_fuel`, so that its trace is a
  finite initial segment of the real, unbounded trace.
-/

namespace WS2812

/-! ## Machine integers -/

/-- The product `a * b` on `uint32_t`. -/
def u32_mul (a b : Nat) : Nat := (a * b) % 2 ^ 32

/-- The sum `a + b` on `uint32_t`. -/
def u32_add (a b : Nat) : Nat := (a + b) % 2 ^ 32

/-- The difference `a - b` on `uint32_t` (wraps below zero), for `a b < 2 ^ 32`. -/
def u32_sub (a b : Nat) : Nat := (a + 2 ^ 32 - b) % 2 ^ 32

/-! ## binary32 arithmetic on non-negative values -/

/-- The exact non-negative rational `num / den`. -/
structure Frac where
  num : Nat
  den : Nat
deriving DecidableEq, Repr

/-- Worker of `ilog2`: halve until below two. -/
def ilog2_aux : Nat → Nat → Nat
  | 0, _ => 0
  | fuel + 1, n => if n < 2 then 0 else ilog2_aux fuel (n / 2) + 1

/-- Floor of the binary logarithm (`0` at `0`). -/
def ilog2 (n : Nat) : Nat := ilog2_aux n n

/-- Floor of the binary logarithm of the positive fraction `x`: the exponent of
its leading bit. -/
def f32_exponent (x : Frac) : Int :=
  let t : Int := (ilog2 x.num : Int) - (ilog2 x.den : Int)
  if x.den * 2 ^ t.toNat ≤ x.num * 2 ^ (-t).toNat then t else t - 1

/-- Nearest integer to `n / d`, ties to even. -/
def round_half_even (n d : Nat) : Nat :=
  let q := n / d
  let r := n % d
  if 2 * r < d then q
  else if d < 2 * r then q + 1
  else if q % 2 = 0 then q else q + 1

/-- Rounding of an exact value to binary32: 24 significant bits, round to
nearest, ties to even. -/
def f32_round (x : Frac) : Frac :=
  if x.num = 0 then ⟨0, 1⟩
  else
    let e : Int := f32_exponent x - 23
    let m := round_half_even (x.num * 2 ^ (-e).toNat) (x.den * 2 ^ e.toNat)
    ⟨m * 2 ^ e.toNat, 2 ^ (-e).toNat⟩

/-- A decimal `float` literal `n / d`, e.g. `2.55f` is `f32_lit 255 100`. -/
def f32_lit (n d : Nat) : Frac := f32_round ⟨n, d⟩

/-- Conversion `uint32_t → float`. -/
def u32_to_f32 (n : Nat) : Frac := f32_round ⟨n, 1⟩

/-- The product `a * b` on `float`. -/
def f32_mul (a b : Frac) : Frac := f32_round ⟨a.num * b.num, a.den * b.den⟩

/-- The quotient `a / b` on `float` (`b` non-zero). -/
def f32_div (a b : Frac) : Frac := f32_round ⟨a.num * b.den, a.den * b.num⟩

/-- Conversion `float → uint32_t`: truncation; undefined in C (here `none`)
when the integral part does not fit. -/
def f32_to_u32 (a : Frac) : Option Nat :=
  if a.num / a.den < 2 ^ 32 then some (a.num / a.den) else none

/-! ## `led_strip_hsv2rgb` -/

/-- The local `rgb_max = v * 2.55f`. -/
def hsv_rgb_max (v : Nat) : Option Nat :=
  f32_to_u32 (f32_mul (u32_to_f32 v) (f32_lit 255 100))

/-- The local `rgb_min = rgb_max * (100 - s) / 100.0f`. -/
def hsv_rgb_min (rgb_max s : Nat) : Option Nat :=
  f32_to_u32 (f32_div (u32_to_f32 (u32_mul rgb_max (u32_sub 100 s))) (f32_lit 100 1))

/-- The local `rgb_adj = (rgb_max - rgb_min) * diff / 60`. -/
def hsv_rgb_adj (rgb_max rgb_min diff : Nat) : Nat :=
  u32_mul (u32_sub rgb_max rgb_min) diff / 60

/-- The `switch (i)` of `led_strip_hsv2rgb`: the triple `(r, g, b)`. -/
def hsv_switch (i rgb_max rgb_min rgb_adj : Nat) : Nat × Nat × Nat :=
  match i with
  | 0 => (rgb_max, u32_add rgb_min rgb_adj, rgb_min)
  | 1 => (u32_sub rgb_max rgb_adj, rgb_max, rgb_min)
  | 2 => (rgb_min, rgb_max, u32_add rgb_min rgb_adj)
  | 3 => (rgb_min, u32_sub rgb_max rgb_adj, rgb_max)
  | 4 => (u32_add rgb_min rgb_adj, rgb_min, rgb_max)
  | _ => (rgb_max, rgb_min, u32_sub rgb_max rgb_adj)

/-- The converter `led_strip_hsv2rgb(h, s, v, &r, &g, &b)`, for `uint32_t`
arguments `h s v < 2 ^ 32`; the result is the triple `(r, g, b)`. -/
def led_strip_hsv2rgb (h s v : Nat) : Option (Nat × Nat × Nat) := do
  let h := h % 360
  let rgb_max ← hsv_rgb_max v
  let rgb_min ← hsv_rgb_min rgb_max s
  let i := h / 60
  let diff := h % 60
  let rgb_adj := hsv_rgb_adj rgb_max rgb_min diff
  pure (hsv_switch i rgb_max rgb_min rgb_adj)

/-! ## Traces of calls to the driver and the RTOS -/

/-- One call to an external collaborator, with its arguments. -/
inductive Call where
  | rmt_config
  | rmt_driver_install
  | led_strip_new_rmt_ws2812
  | set_pixel (index red green blue : Nat)
  | refresh (timeout_ms : Nat)
  | clear (timeout_ms : Nat)
  | vTaskDelay (ms : Nat)
deriving DecidableEq, Repr

/-- How a run stands. -/
inductive Status where
  | running
  | aborted
  | undefined
  | out_of_fuel
deriving DecidableEq, Repr

/-- The calls made so far and the status of the run. -/
structure Machine where
  trace : List Call
  status : Status
deriving DecidableEq, Repr

/-- The external side: given the calls made so far, the current one last, does
the current call succeed? -/
abbrev Driver := List Call → Bool

/-- The three operations of the strip driver. -/
def Call.isStrip : Call → Bool
  | .set_pixel _ _ _ _ => true
  | .refresh _ => true
  | .clear _ => true
  | _ => false

/-- A pixel write. -/
def Call.isSetPixel : Call → Bool
  | .set_pixel _ _ _ _ => true
  | _ => false

/-- A clear of the strip. -/
def Call.isClear : Call → Bool
  | .clear _ => true
  | _ => false

/-- A refresh of the strip. -/
def Call.isRefresh : Call → Bool
  | .refresh _ => true
  | _ => false

/-- The start of a run. -/
def Machine.init : Machine := ⟨[], .running⟩

/-- Modelled from the spec: the ESP-IDF macro `ESP_ERROR_CHECK(call)`, which is
not part of the sources. The call is made; when it reports failure the process
is aborted, and nothing after it runs. -/
def ESP_ERROR_CHECK (strip : Driver) (c : Call) (m : Machine) : Machine :=
  match m.status with
  | .running => ⟨m.trace ++ [c], if strip (m.trace ++ [c]) then .running else .aborted⟩
  | _ => m

/-- The delay `vTaskDelay(pdMS_TO_TICKS(ms))`. -/
def vTaskDelay (ms : Nat) (m : Machine) : Machine :=
  match m.status with
  | .running => ⟨m.trace ++ [.vTaskDelay ms], .running⟩
  | _ => m

/-- End of the iteration bound of a `while (true)` loop. -/
def Machine.stop (m : Machine) : Machine :=
  match m.status with
  | .running => ⟨m.trace, .out_of_fuel⟩
  | _ => m

/-- A loop `while (true) body` run for at most `fuel` iterations. -/
def while_true (fuel : Nat) (body : Machine → Machine) (m : Machine) : Machine :=
  (body^[fuel] m).stop

/-! ## The effect renderers -/

/-- The type `led_color_t`. -/
structure led_color_t where
  red : Nat
  green : Nat
  blue : Nat
deriving DecidableEq, Repr

/-- The type `led_effect_t`. -/
inductive led_effect_t where
  | LED_EFFECT_OFF
  | LED_EFFECT_ON
  | LED_EFFECT_BREATH
  | LED_EFFECT_FADE_IN
  | LED_EFFECT_BLINK_SLOW
  | LED_EFFECT_BLINK_FAST
  | LED_EFFECT_RAINBOW
deriving DecidableEq, Repr

/-- The constant `CONFIG_EXAMPLE_STRIP_LED_NUMBER`. -/
def CONFIG_EXAMPLE_STRIP_LED_NUMBER : Nat := 1

/-- The constant `EXAMPLE_CHASE_SPEED_MS`. -/
def EXAMPLE_CHASE_SPEED_MS : Nat := 80

/-- The renderer `led_set_on`. -/
def led_set_on (strip : Driver) (color : led_color_t) (m : Machine) : Machine :=
  m |> ESP_ERROR_CHECK strip (.set_pixel 0 color.red color.green color.blue)
    |> ESP_ERROR_CHECK strip (.refresh 100)

/-- The renderer `led_set_off`. -/
def led_set_off (strip : Driver) (m : Machine) : Machine :=
  m |> ESP_ERROR_CHECK strip (.clear 100)

/-- The pixel write shared by the ramps: every channel scaled by `i / 255`. -/
def scaled_pixel (color : led_color_t) (i : Nat) : Call :=
  .set_pixel 0 (u32_mul color.red i / 255) (u32_mul color.green i / 255)
    (u32_mul color.blue i / 255)

/-- The loop body shared by `led_set_breath` (both loops) and `led_set_fade_in`:
write the scaled colour, refresh, wait `ms` milliseconds. -/
def ramp_step (strip : Driver) (color : led_color_t) (ms : Nat) (i : Nat) (m : Machine) :
    Machine :=
  m |> ESP_ERROR_CHECK strip (scaled_pixel color i)
    |> ESP_ERROR_CHECK strip (.refresh 100)
    |> vTaskDelay ms

/-- The renderer `led_set_breath`: `i` from 0 up to 255, then from 255 down to 0. -/
def led_set_breath (strip : Driver) (color : led_color_t) (m : Machine) : Machine :=
  let m := (List.range 256).foldl (fun m i => ramp_step strip color 10 i m) m
  (List.range 256).reverse.foldl (fun m i => ramp_step strip color 10 i m) m

/-- The renderer `led_set_fade_in`: `i` from 0 up to 255. -/
def led_set_fade_in (strip : Driver) (color : led_color_t) (m : Machine) : Machine :=
  (List.range 256).foldl (fun m i => ramp_step strip color 20 i m) m

/-- The renderer `led_set_blink_slow`, its loop bounded by `fuel`. -/
def led_set_blink_slow (strip : Driver) (color : led_color_t) (fuel : Nat) (m : Machine) :
    Machine :=
  while_true fuel
    (fun m => m |> led_set_on strip color |> vTaskDelay 500
                |> led_set_off strip |> vTaskDelay 500) m

/-- The renderer `led_set_blink_fast`, its loop bounded by `fuel`. -/
def led_set_blink_fast (strip : Driver) (color : led_color_t) (fuel : Nat) (m : Machine) :
    Machine :=
  while_true fuel
    (fun m => m |> led_set_on strip color |> vTaskDelay 100
                |> led_set_off strip |> vTaskDelay 100) m

/-- The locals of `led_set_rainbow` together with the run. -/
structure RainbowState where
  red : Nat
  green : Nat
  blue : Nat
  hue : Nat
  start_rgb : Nat
  m : Machine
deriving DecidableEq, Repr

/-- The assignment `hue = j * 360 / CONFIG_EXAMPLE_STRIP_LED_NUMBER + start_rgb`
to the `uint16_t` local `hue`. -/
def rainbow_hue (j start_rgb : Nat) : Nat :=
  (j * 360 / CONFIG_EXAMPLE_STRIP_LED_NUMBER + start_rgb) % 2 ^ 16

/-- The body of the inner `for (j ...)` loop of `led_set_rainbow`. -/
def rainbow_pixel (strip : Driver) (j : Nat) (st : RainbowState) : RainbowState :=
  match st.m.status with
  | .running =>
    let hue := rainbow_hue j st.start_rgb
    match led_strip_hsv2rgb hue 100 100 with
    | some (r, g, b) =>
      { st with hue := hue, red := r, green := g, blue := b,
                m := ESP_ERROR_CHECK strip (.set_pixel j r g b) st.m }
    | none => { st with hue := hue, m := ⟨st.m.trace, .undefined⟩ }
  | _ => st

/-- The body of the `for (i ...)` loop of `led_set_rainbow`: pass `i` writes the
pixels `j = i, i + 3, ...` below the strip length, then refreshes and waits. -/
def rainbow_pass (strip : Driver) (i : Nat) (st : RainbowState) : RainbowState :=
  let st := ((List.range CONFIG_EXAMPLE_STRIP_LED_NUMBER).filter
      (fun j => decide (i ≤ j ∧ (j - i) % 3 = 0))).foldl
      (fun st j => rainbow_pixel strip j st) st
  { st with m := st.m |> ESP_ERROR_CHECK strip (.refresh 100)
                      |> vTaskDelay EXAMPLE_CHASE_SPEED_MS }

/-- One iteration of the `while (true)` loop of `led_set_rainbow`: three passes,
then `start_rgb += 60` on `uint16_t` and a delay. -/
def rainbow_iteration (strip : Driver) (st : RainbowState) : RainbowState :=
  let st := (List.range 3).foldl (fun st i => rainbow_pass strip i st) st
  match st.m.status with
  | .running => { st with start_rgb := (st.start_rgb + 60) % 2 ^ 16, m := vTaskDelay 100 st.m }
  | _ => st

/-- The locals of `led_set_rainbow` at loop entry. -/
def rainbow_entry (m : Machine) : RainbowState := ⟨0, 0, 0, 0, 0, m⟩

/-- The state of `led_set_rainbow` at the start of iteration `k` of its loop. -/
def rainbow_at (strip : Driver) (k : Nat) (m : Machine) : RainbowState :=
  (rainbow_iteration strip)^[k] (rainbow_entry m)

/-- The state of `led_set_rainbow` after pass `i = 0` of iteration `k`: its
`hue`, `red`, `green`, `blue` are the hue assigned to pixel 0 on that pass and
the colour converted from it. -/
def rainbow_pass0 (strip : Driver) (k : Nat) : RainbowState :=
  rainbow_pass strip 0 (rainbow_at strip k Machine.init)

/-- The renderer `led_set_rainbow`, its loop bounded by `fuel`. -/
def led_set_rainbow (strip : Driver) (fuel : Nat) (m : Machine) : Machine :=
  (rainbow_at strip fuel m).m.stop

/-! ## The dispatcher -/

/-- The call `led_strip_new_rmt_ws2812(&strip_config)`. On failure the source
only logs and goes on to use the null handle, which is undefined. -/
def led_strip_new_rmt_ws2812 (strip : Driver) (m : Machine) : Machine :=
  match m.status with
  | .running =>
    ⟨m.trace ++ [.led_strip_new_rmt_ws2812],
      if strip (m.trace ++ [.led_strip_new_rmt_ws2812]) then .running else .undefined⟩
  | _ => m

/-- The `switch (effect)` of `ws2812_control_task`. -/
def dispatch (strip : Driver) (effect : led_effect_t) (color : led_color_t) (fuel : Nat)
    (m : Machine) : Machine :=
  match effect with
  | .LED_EFFECT_ON => led_set_on strip color m
  | .LED_EFFECT_OFF => led_set_off strip m
  | .LED_EFFECT_BREATH => led_set_breath strip color m
  | .LED_EFFECT_FADE_IN => led_set_fade_in strip color m
  | .LED_EFFECT_BLINK_SLOW => led_set_blink_slow strip color fuel m
  | .LED_EFFECT_BLINK_FAST => led_set_blink_fast strip color fuel m
  | .LED_EFFECT_RAINBOW => led_set_rainbow strip fuel m

/-- The task `ws2812_control_task`, with the effect tag as a parameter (the
source fixes it to `LED_EFFECT_BREATH`) and the colour `{255, 0, 0}` of the
source; every `while (true)` loop is bounded by `fuel`. -/
def ws2812_control_task (strip : Driver) (effect : led_effect_t) (fuel : Nat) : Machine :=
  let m := Machine.init
    |> ESP_ERROR_CHECK strip .rmt_config
    |> ESP_ERROR_CHECK strip .rmt_driver_install
    |> led_strip_new_rmt_ws2812 strip
    |> ESP_ERROR_CHECK strip (.clear 100)
  let color : led_color_t := ⟨255, 0, 0⟩
  while_true fuel (fun m => m |> dispatch strip effect color fuel |> vTaskDelay 10) m

/-! ## Reading a trace -/

/-- A colour channel. -/
inductive Channel where
  | red
  | green
  | blue
deriving DecidableEq, Repr

/-- The channel of a colour. -/
def Channel.of_color : Channel → led_color_t → Nat
  | .red, c => c.red
  | .green, c => c.green
  | .blue, c => c.blue

/-- The intensity a call writes to the channel of pixel 0, if it is a write to
pixel 0. -/
def Channel.of_call : Channel → Call → Option Nat
  | .red, .set_pixel 0 r _ _ => some r
  | .green, .set_pixel 0 _ g _ => some g
  | .blue, .set_pixel 0 _ _ b => some b
  | _, _ => none

/-- The intensities written to a channel of pixel 0, in order. -/
def written (ch : Channel) (t : List Call) : List Nat :=
  t.filterMap ch.of_call

/-- A driver whose calls all succeed. -/
def Driver.ok (strip : Driver) : Prop := ∀ t, strip t = true

/-- The driver that always succeeds. -/
def always_ok : Driver := fun _ => true

/-- A driver whose call number `n` (counted from 0) fails, all others
succeeding. -/
def fails_at (n : Nat) : Driver := fun t => decide (t.length ≠ n + 1)

/-- Fail-fast: a strip-driver call that reports failure is the last call of the
run, and the run is aborted. -/
def FailFast (strip : Driver) (m : Machine) : Prop :=
  ∀ pre c post, m.trace = pre ++ c :: post → c.isStrip = true →
    strip (pre ++ [c]) = false → post = [] ∧ m.status = .aborted

/-- Every pixel write of the trace comes after a clear of the strip. -/
def ClearFirst (t : List Call) : Prop :=
  ∀ pre c post, t = pre ++ c :: post → c.isSetPixel = true →
    ∃ c0 ∈ pre, c0.isClear = true

/-- The invariant of a run once the strip has been cleared: every pixel write
comes after a clear, and a run that is still going has cleared the strip. -/
def ClearInv (m : Machine) : Prop :=
  ClearFirst m.trace ∧ (m.status = .running → ∃ c0 ∈ m.trace, c0.isClear = true)

/-- No pixel write has been made. -/
def NoPixel (m : Machine) : Prop := ∀ c ∈ m.trace, c.isSetPixel = false

/-! ## Facts about binary32 rounding -/

theorem ilog2_aux_spec (fuel : Nat) : ∀ n, n ≤ fuel → 0 < n →
    2 ^ ilog2_aux fuel n ≤ n ∧ n < 2 ^ (ilog2_aux fuel n + 1) := by
  induction fuel with
  | zero => intro n h1 h2; omega
  | succ f ih =>
    intro n hn hpos
    unfold ilog2_aux
    by_cases h2 : n < 2
    · simp only [h2, if_true]
      constructor <;> simp <;> omega
    · simp only [h2, if_false]
      have hlt : n / 2 ≤ f := by omega
      have hp : 0 < n / 2 := by omega
      obtain ⟨a, b⟩ := ih (n / 2) hlt hp
      rw [pow_succ, pow_succ]
      constructor <;> omega

theorem ilog2_spec (n : Nat) (h : 0 < n) : 2 ^ ilog2 n ≤ n ∧ n < 2 ^ (ilog2 n + 1) :=
  ilog2_aux_spec n n le_rfl h

theorem f32_exponent_lt (x : Frac) (j : Nat) (hd : 0 < x.den) (hn : 0 < x.num)
    (h : x.num < 2 ^ j * x.den) : f32_exponent x < (j : Int) := by
  obtain ⟨n1, _⟩ := ilog2_spec x.num hn
  obtain ⟨_, d2⟩ := ilog2_spec x.den hd
  have hlog : ilog2 x.num ≤ j + ilog2 x.den := by
    by_contra hc
    have h1 : 2 ^ (j + ilog2 x.den + 1) ≤ 2 ^ ilog2 x.num :=
      Nat.pow_le_pow_right (by norm_num) (by omega)
    have h2 : 2 ^ j * x.den < 2 ^ j * 2 ^ (ilog2 x.den + 1) :=
      mul_lt_mul_of_pos_left d2 (by positivity)
    have h3 : 2 ^ (j + ilog2 x.den + 1) = 2 ^ j * 2 ^ (ilog2 x.den + 1) := by
      rw [add_assoc, pow_add]
    omega
  unfold f32_exponent
  simp only
  split_ifs with hc
  · by_contra hge
    have ht : (ilog2 x.num : Int) - (ilog2 x.den : Int) = (j : Int) := by omega
    rw [ht] at hc
    simp at hc
    have : x.den * 2 ^ j = 2 ^ j * x.den := Nat.mul_comm _ _
    omega
  · omega

theorem round_half_even_bounds (n d : Nat) :
    n / d ≤ round_half_even n d ∧ round_half_even n d ≤ n / d + 1 := by
  unfold round_half_even
  simp only
  split_ifs <;> omega

theorem round_half_even_one (n : Nat) : round_half_even n 1 = n := by
  unfold round_half_even
  simp [Nat.mod_one]

/-- Integers below `2 ^ 24` convert to `float` exactly. -/
theorem u32_to_f32_exact (p : Nat) (hp : p < 2 ^ 24) :
    ∃ s, u32_to_f32 p = ⟨p * 2 ^ s, 2 ^ s⟩ := by
  by_cases h0 : p = 0
  · exact ⟨0, by subst h0; simp [u32_to_f32, f32_round]⟩
  · have hE : f32_exponent ⟨p, 1⟩ < ((24 : Nat) : Int) :=
      f32_exponent_lt ⟨p, 1⟩ 24 (by simp) (by simp; omega) (by simpa using hp)
    refine ⟨(-(f32_exponent ⟨p, 1⟩ - 23)).toNat, ?_⟩
    have he : (f32_exponent ⟨p, 1⟩ - 23).toNat = 0 := by
      apply Int.toNat_eq_zero.mpr; omega
    simp [u32_to_f32, f32_round, h0, he, round_half_even_one]

/-- Truncation after rounding to binary32 is truncation of the exact value, for
a value below `2 ^ 16` whose fractional part is at most `0.99`. -/
theorem f32_to_u32_round (x : Frac) (hd : 0 < x.den) (hlt : x.num < 2 ^ 16 * x.den)
    (hfrac : 100 * (x.num % x.den) ≤ 99 * x.den) :
    f32_to_u32 (f32_round x) = some (x.num / x.den) := by
  by_cases h0 : x.num = 0
  · simp [f32_round, h0, f32_to_u32]
  · have hE : f32_exponent x < ((16 : Nat) : Int) :=
      f32_exponent_lt x 16 hd (Nat.pos_of_ne_zero h0) hlt
    have he : (f32_exponent x - 23).toNat = 0 := by
      apply Int.toNat_eq_zero.mpr; omega
    obtain ⟨s, hs, hs8⟩ : ∃ s, (-(f32_exponent x - 23)).toNat = s ∧ 8 ≤ s :=
      ⟨_, rfl, by omega⟩
    have hP : 2 ^ 8 ≤ 2 ^ s := Nat.pow_le_pow_right (by norm_num) hs8
    obtain ⟨lo, hi⟩ := round_half_even_bounds (x.num * 2 ^ s) x.den
    have hk : x.num / x.den < 2 ^ 16 := by
      rw [Nat.div_lt_iff_lt_mul hd]; exact hlt
    have hdm := Nat.div_add_mod x.num x.den
    have hmlt := Nat.mod_lt x.num hd
    -- the scaled quotient lies between `k * 2 ^ s` and `(k + 1) * 2 ^ s - 2`
    have hq1 : x.num / x.den * 2 ^ s ≤ x.num * 2 ^ s / x.den := by
      rw [Nat.le_div_iff_mul_le hd]
      have : x.num / x.den * x.den ≤ x.num := Nat.div_mul_le_self _ _
      calc x.num / x.den * 2 ^ s * x.den = x.num / x.den * x.den * 2 ^ s := by ring
        _ ≤ x.num * 2 ^ s := Nat.mul_le_mul_right _ this
    have hq2 : x.num * 2 ^ s / x.den + 1 < (x.num / x.den + 1) * 2 ^ s := by
      have hA : 100 * ((x.num % x.den) * 2 ^ s) ≤ 99 * (x.den * 2 ^ s) := by
        have := Nat.mul_le_mul_right (2 ^ s) hfrac
        calc 100 * ((x.num % x.den) * 2 ^ s) = 100 * (x.num % x.den) * 2 ^ s := by ring
          _ ≤ 99 * x.den * 2 ^ s := this
          _ = 99 * (x.den * 2 ^ s) := by ring
      have hB : x.den * 2 ^ 8 ≤ x.den * 2 ^ s := Nat.mul_le_mul_left _ hP
      have hN : x.num * 2 ^ s
          = (x.num / x.den * 2 ^ s) * x.den + (x.num % x.den) * 2 ^ s := by
        conv_lhs => rw [← hdm]
        ring
      have hlt2 : x.num * 2 ^ s / x.den < (x.num / x.den + 1) * 2 ^ s - 1 := by
        rw [Nat.div_lt_iff_lt_mul hd]
        have hpos : 1 ≤ (x.num / x.den + 1) * 2 ^ s := by
          have : 0 < (x.num / x.den + 1) * 2 ^ s := by positivity
          omega
        have hexp : ((x.num / x.den + 1) * 2 ^ s - 1) * x.den
            = (x.num / x.den * 2 ^ s) * x.den + x.den * 2 ^ s - x.den := by
          have h1 : (x.num / x.den + 1) * 2 ^ s * x.den
              = (x.num / x.den * 2 ^ s) * x.den + x.den * 2 ^ s := by ring
          rw [Nat.sub_mul, h1]; simp
        rw [hexp, hN]
        norm_num at hB
        omega
      omega
    have hm : round_half_even (x.num * 2 ^ s) x.den / 2 ^ s = x.num / x.den := by
      apply Nat.div_eq_of_lt_le
      · omega
      · omega
    have hk32 : x.num / x.den < 2 ^ 32 := hk.trans (by norm_num)
    simp only [f32_round, h0, if_false, he, hs, f32_to_u32, pow_zero, mul_one, hm, hk32, if_true]

theorem f32_lit_100 : f32_lit 100 1 = ⟨13107200, 131072⟩ := by decide

/-- The literal `2.55f` is the binary32 number `10695475 * 2 ^ (-22)` (bit
pattern `0x40233333`), slightly below 2.55. -/
theorem f32_lit_2_55 : f32_lit 255 100 = ⟨10695475, 2 ^ 22⟩ := by decide

/-- The product `100 * 2.55f` is rounded up to exactly 255 in binary32, although
the exact product of the two factors is below 255. -/
theorem f32_mul_100_2_55 :
    f32_mul (u32_to_f32 100) (f32_lit 255 100) = ⟨255 * 2 ^ 16, 2 ^ 16⟩ ∧
    (u32_to_f32 100).num * (f32_lit 255 100).num
      < 255 * ((u32_to_f32 100).den * (f32_lit 255 100).den) := by
  decide!

/-- The value `rgb_max` for a brightness in percent. -/
theorem hsv_rgb_max_eq : ∀ v < 101, hsv_rgb_max v = some (v * 255 / 100) := by
  decide!

/-- Division of a small integer by `100.0f`, truncated. -/
theorem f32_div_100 (p : Nat) (hp : p < 2 ^ 20) :
    f32_to_u32 (f32_div (u32_to_f32 p) (f32_lit 100 1)) = some (p / 100) := by
  obtain ⟨s, hs⟩ := u32_to_f32_exact p (hp.trans (by norm_num))
  rw [hs, f32_lit_100]
  unfold f32_div
  have hc : 0 < 2 ^ s * 131072 := by positivity
  have e1 : p * 2 ^ s * 131072 = p * (2 ^ s * 131072) := by ring
  have e2 : 2 ^ s * 13107200 = 100 * (2 ^ s * 131072) := by ring
  have hdiv : p * (2 ^ s * 131072) / (100 * (2 ^ s * 131072)) = p / 100 :=
    Nat.mul_div_mul_right p 100 hc
  have hmod : p * (2 ^ s * 131072) % (100 * (2 ^ s * 131072))
      = p % 100 * (2 ^ s * 131072) := Nat.mul_mod_mul_right _ _ _
  have := f32_to_u32_round ⟨p * 2 ^ s * 131072, 2 ^ s * 13107200⟩
    (by simp) (by simp only [e1, e2]; norm_num at hp ⊢; nlinarith)
    (by
      simp only [e1, e2, hmod]
      have : p % 100 ≤ 99 := by omega
      nlinarith)
  rw [this]
  simp only [e1, e2, hdiv]

/-! ## The converter on percentages -/

theorem hsv_rgb_min_eq (rgb_max s : Nat) (hM : rgb_max ≤ 255) (hs : s ≤ 100) :
    hsv_rgb_min rgb_max s = some (rgb_max * (100 - s) / 100) := by
  have h1 : u32_sub 100 s = 100 - s := by
    unfold u32_sub
    have : 100 + 2 ^ 32 - s = 2 ^ 32 + (100 - s) := by omega
    rw [this, Nat.add_mod_left]
    exact Nat.mod_eq_of_lt (by norm_num; omega)
  have hb : rgb_max * (100 - s) ≤ 255 * 100 := Nat.mul_le_mul hM (by omega)
  have h2 : u32_mul rgb_max (100 - s) = rgb_max * (100 - s) := by
    unfold u32_mul
    exact Nat.mod_eq_of_lt (by norm_num; omega)
  unfold hsv_rgb_min
  rw [h1, h2]
  exact f32_div_100 _ (by norm_num; omega)

/-- The converter in integer arithmetic, for percentages `s` and `v`. -/
theorem led_strip_hsv2rgb_eq (h s v : Nat) (hs : s ≤ 100) (hv : v ≤ 100) :
    led_strip_hsv2rgb h s v =
      some (hsv_switch (h % 360 / 60) (v * 255 / 100) (v * 255 / 100 * (100 - s) / 100)
        (hsv_rgb_adj (v * 255 / 100) (v * 255 / 100 * (100 - s) / 100) (h % 360 % 60))) := by
  have hM : v * 255 / 100 ≤ 255 := by omega
  unfold led_strip_hsv2rgb
  rw [hsv_rgb_max_eq v (by omega)]
  simp only [Option.bind_eq_bind, Option.some_bind, Option.pure_def]
  rw [hsv_rgb_min_eq _ s hM hs]
  simp only [Option.some_bind]

theorem hsv_rgb_adj_le (M m d : Nat) (hM : M ≤ 255) (hm : m ≤ M) (hd : d < 60) :
    hsv_rgb_adj M m d ≤ M - m := by
  have h1 : u32_sub M m = M - m := by
    unfold u32_sub
    have : M + 2 ^ 32 - m = 2 ^ 32 + (M - m) := by omega
    rw [this, Nat.add_mod_left]
    exact Nat.mod_eq_of_lt (by norm_num; omega)
  have hb : (M - m) * d ≤ 255 * 60 := Nat.mul_le_mul (by omega) (by omega)
  have h2 : u32_mul (M - m) d = (M - m) * d := by
    unfold u32_mul
    exact Nat.mod_eq_of_lt (by norm_num; omega)
  unfold hsv_rgb_adj
  rw [h1, h2]
  have h3 : (M - m) * d ≤ (M - m) * 60 := Nat.mul_le_mul_left _ (by omega)
  omega

theorem hsv_switch_le (i M m a : Nat) (hM : M ≤ 255) (hm : m ≤ M) (ha : a ≤ M - m) :
    (hsv_switch i M m a).1 ≤ 255 ∧ (hsv_switch i M m a).2.1 ≤ 255 ∧
      (hsv_switch i M m a).2.2 ≤ 255 := by
  have e1 : u32_add m a = m + a := by
    unfold u32_add; exact Nat.mod_eq_of_lt (by norm_num; omega)
  have e2 : u32_sub M a = M - a := by
    unfold u32_sub
    have : M + 2 ^ 32 - a = 2 ^ 32 + (M - a) := by omega
    rw [this, Nat.add_mod_left]
    exact Nat.mod_eq_of_lt (by norm_num; omega)
  unfold hsv_switch
  split <;> simp only [e1, e2] <;> omega

/-! ## Claims on the converter -/

/-- C1: for every hue (in particular every `uint32_t` value) and every
saturation and value in `[0,100]`, `led_strip_hsv2rgb` produces `r`, `g`, `b` in
`[0,255]`; `rgb_min` and `rgb_adj` do not exceed `rgb_max`, so neither
`rgb_max - rgb_min` nor `rgb_max - rgb_adj` wraps. -/
theorem led_strip_hsv2rgb_range (h s v : Nat) (hs : s ≤ 100) (hv : v ≤ 100) :
    ∃ rgb_max rgb_min r g b,
      hsv_rgb_max v = some rgb_max ∧ hsv_rgb_min rgb_max s = some rgb_min ∧
      rgb_min ≤ rgb_max ∧ hsv_rgb_adj rgb_max rgb_min (h % 360 % 60) ≤ rgb_max ∧
      led_strip_hsv2rgb h s v = some (r, g, b) ∧ r ≤ 255 ∧ g ≤ 255 ∧ b ≤ 255 := by
  have hM : v * 255 / 100 ≤ 255 := by omega
  have hm : v * 255 / 100 * (100 - s) / 100 ≤ v * 255 / 100 := by
    apply Nat.div_le_of_le_mul
    rw [Nat.mul_comm 100]
    exact Nat.mul_le_mul_left _ (by omega)
  have hd : h % 360 % 60 < 60 := Nat.mod_lt _ (by norm_num)
  have ha := hsv_rgb_adj_le _ _ _ hM hm hd
  obtain ⟨b1, b2, b3⟩ := hsv_switch_le (h % 360 / 60) _ _ _ hM hm ha
  exact ⟨_, _, _, _, _, hsv_rgb_max_eq v (by omega), hsv_rgb_min_eq _ s hM hs, hm,
    by omega, led_strip_hsv2rgb_eq h s v hs hv, b1, b2, b3⟩

/-- Witness of C1 at `h = 2 ^ 32 - 1`, `s = 37`, `v = 100`. -/
theorem led_strip_hsv2rgb_range_witness :
    (37 ≤ 100 ∧ 100 ≤ 100) ∧
    ∃ rgb_max rgb_min r g b,
      hsv_rgb_max 100 = some rgb_max ∧ hsv_rgb_min rgb_max 37 = some rgb_min ∧
      rgb_min ≤ rgb_max ∧ hsv_rgb_adj rgb_max rgb_min (4294967295 % 360 % 60) ≤ rgb_max ∧
      led_strip_hsv2rgb 4294967295 37 100 = some (r, g, b) ∧ r ≤ 255 ∧ g ≤ 255 ∧ b ≤ 255 :=
  ⟨by decide, led_strip_hsv2rgb_range 4294967295 37 100 (by decide) (by decide)⟩

/-- C2: at full saturation and value the hues 0, 120 and 240 give pure red,
green and blue. -/
theorem led_strip_hsv2rgb_primaries :
    led_strip_hsv2rgb 0 100 100 = some (255, 0, 0) ∧
    led_strip_hsv2rgb 120 100 100 = some (0, 255, 0) ∧
    led_strip_hsv2rgb 240 100 100 = some (0, 0, 255) := by
  refine ⟨?_, ?_, ?_⟩ <;> decide!

/-- C3: for every hue `h` with `0 ≤ h < 360`, at full saturation and value the
largest channel is 255 and the smallest is 0. -/
theorem led_strip_hsv2rgb_full (h : Nat) (_hh : h < 360) :
    ∃ r g b, led_strip_hsv2rgb h 100 100 = some (r, g, b) ∧
      max r (max g b) = 255 ∧ min r (min g b) = 0 := by
  have hd : h % 360 % 60 < 60 := Nat.mod_lt _ (by norm_num)
  have ha := hsv_rgb_adj_le 255 0 _ le_rfl (Nat.zero_le _) hd
  have e1 : ∀ a, a ≤ 255 → u32_add 0 a = a := by
    intro a ha; unfold u32_add; rw [Nat.zero_add]; exact Nat.mod_eq_of_lt (by norm_num; omega)
  have e2 : ∀ a, a ≤ 255 → u32_sub 255 a = 255 - a := by
    intro a ha
    unfold u32_sub
    have : 255 + 2 ^ 32 - a = 2 ^ 32 + (255 - a) := by omega
    rw [this, Nat.add_mod_left]
    exact Nat.mod_eq_of_lt (by norm_num; omega)
  rw [led_strip_hsv2rgb_eq h 100 100 le_rfl le_rfl]
  norm_num only at ha ⊢
  generalize hsv_rgb_adj 255 0 (h % 360 % 60) = a at ha ⊢
  have key : max (hsv_switch (h % 360 / 60) 255 0 a).1
        (max (hsv_switch (h % 360 / 60) 255 0 a).2.1 (hsv_switch (h % 360 / 60) 255 0 a).2.2)
        = 255 ∧
      min (hsv_switch (h % 360 / 60) 255 0 a).1
        (min (hsv_switch (h % 360 / 60) 255 0 a).2.1 (hsv_switch (h % 360 / 60) 255 0 a).2.2)
        = 0 := by
    unfold hsv_switch
    split <;> simp only [e1 a ha, e2 a ha] <;> omega
  exact ⟨_, _, _, rfl, key⟩

/-- Witness of C3 at `h = 200`. -/
theorem led_strip_hsv2rgb_full_witness :
    200 < 360 ∧ ∃ r g b, led_strip_hsv2rgb 200 100 100 = some (r, g, b) ∧
      max r (max g b) = 255 ∧ min r (min g b) = 0 :=
  ⟨by decide, led_strip_hsv2rgb_full 200 (by decide)⟩

/-- C4: at saturation 0, for every hue and every value in `[0,100]`, the three
channels are equal. -/
theorem led_strip_hsv2rgb_gray (h v : Nat) (hv : v ≤ 100) :
    ∃ c, led_strip_hsv2rgb h 0 v = some (c, c, c) := by
  have hM : v * 255 / 100 ≤ 255 := by omega
  have hm : v * 255 / 100 * (100 - 0) / 100 = v * 255 / 100 := by
    rw [Nat.sub_zero, Nat.mul_div_cancel _ (by norm_num)]
  have hd : h % 360 % 60 < 60 := Nat.mod_lt _ (by norm_num)
  have ha := hsv_rgb_adj_le (v * 255 / 100) (v * 255 / 100) _ hM le_rfl hd
  have ha0 : hsv_rgb_adj (v * 255 / 100) (v * 255 / 100) (h % 360 % 60) = 0 := by omega
  have e1 : u32_add (v * 255 / 100) 0 = v * 255 / 100 := by
    unfold u32_add; exact Nat.mod_eq_of_lt (by norm_num; omega)
  have e2 : u32_sub (v * 255 / 100) 0 = v * 255 / 100 := by
    unfold u32_sub
    rw [Nat.sub_zero, Nat.add_mod_right]
    exact Nat.mod_eq_of_lt (by norm_num; omega)
  refine ⟨v * 255 / 100, ?_⟩
  rw [led_strip_hsv2rgb_eq h 0 v (by omega) hv, hm, ha0]
  unfold hsv_switch
  split <;> simp only [e1, e2]

/-- Witness of C4 at `h = 77`, `v = 50`. -/
theorem led_strip_hsv2rgb_gray_witness :
    50 ≤ 100 ∧ ∃ c, led_strip_hsv2rgb 77 0 50 = some (c, c, c) :=
  ⟨by decide, led_strip_hsv2rgb_gray 77 50 (by decide)⟩

/-- C5, as stated, fails: the hue `2 ^ 32 - 360` and the `uint32_t` value of
that hue plus 360, which is 0, are converted to different colours. -/
theorem led_strip_hsv2rgb_wrap_counterexample :
    led_strip_hsv2rgb 4294966936 100 100 = some (68, 0, 255) ∧
    led_strip_hsv2rgb ((4294966936 + 360) % 2 ^ 32) 100 100 = some (255, 0, 0) ∧
    led_strip_hsv2rgb ((4294966936 + 360) % 2 ^ 32) 100 100
      ≠ led_strip_hsv2rgb 4294966936 100 100 := by
  refine ⟨?_, ?_, ?_⟩ <;> decide!

/-- C5, amended: when `h + 360` is representable in `uint32_t`, the hues `h` and
`h + 360` are converted to the same colour, for every `s` and `v` in `[0,100]`. -/
theorem led_strip_hsv2rgb_period (h s v : Nat) (hh : h + 360 < 2 ^ 32) (hs : s ≤ 100)
    (hv : v ≤ 100) :
    led_strip_hsv2rgb ((h + 360) % 2 ^ 32) s v = led_strip_hsv2rgb h s v := by
  rw [Nat.mod_eq_of_lt hh, led_strip_hsv2rgb_eq (h + 360) s v hs hv,
    led_strip_hsv2rgb_eq h s v hs hv, Nat.add_mod_right]

/-- Witness of amended C5 at `h = 4294966935`, the largest hue it covers. -/
theorem led_strip_hsv2rgb_period_witness :
    (4294966935 + 360 < 2 ^ 32 ∧ 100 ≤ 100 ∧ 100 ≤ 100) ∧
    led_strip_hsv2rgb ((4294966935 + 360) % 2 ^ 32) 100 100
      = led_strip_hsv2rgb 4294966935 100 100 :=
  ⟨by decide, led_strip_hsv2rgb_period 4294966935 100 100 (by decide) (by decide) (by decide)⟩

/-! ## Runs with a driver that succeeds -/

theorem ESP_ERROR_CHECK_ok (strip : Driver) (hok : strip.ok) (c : Call) (t : List Call) :
    ESP_ERROR_CHECK strip c ⟨t, .running⟩ = ⟨t ++ [c], .running⟩ := by
  simp [ESP_ERROR_CHECK, hok (t ++ [c])]

theorem vTaskDelay_running (ms : Nat) (t : List Call) :
    vTaskDelay ms ⟨t, .running⟩ = ⟨t ++ [.vTaskDelay ms], .running⟩ := rfl

theorem ramp_step_ok (strip : Driver) (hok : strip.ok) (color : led_color_t) (ms i : Nat)
    (t : List Call) :
    ramp_step strip color ms i ⟨t, .running⟩
      = ⟨t ++ [scaled_pixel color i, .refresh 100, .vTaskDelay ms], .running⟩ := by
  simp [ramp_step, ESP_ERROR_CHECK_ok strip hok, vTaskDelay_running]

theorem written_ramp_step (ch : Channel) (color : led_color_t) (ms i : Nat) (t : List Call) :
    written ch (t ++ [scaled_pixel color i, .refresh 100, .vTaskDelay ms])
      = written ch t ++ [u32_mul (ch.of_color color) i / 255] := by
  cases ch <;>
    simp [written, List.filterMap_append, List.filterMap_cons, Channel.of_call, scaled_pixel,
      Channel.of_color]

theorem ramp_fold_ok (strip : Driver) (hok : strip.ok) (color : led_color_t) (ms : Nat)
    (ch : Channel) (l : List Nat) : ∀ t : List Call,
    (l.foldl (fun m i => ramp_step strip color ms i m) ⟨t, .running⟩).status = .running ∧
    written ch (l.foldl (fun m i => ramp_step strip color ms i m) ⟨t, .running⟩).trace
      = written ch t ++ l.map (fun i => u32_mul (ch.of_color color) i / 255) := by
  induction l with
  | nil => intro t; simp
  | cons i l ih =>
    intro t
    rw [List.foldl_cons, ramp_step_ok strip hok]
    obtain ⟨h1, h2⟩ := ih (t ++ [scaled_pixel color i, .refresh 100, .vTaskDelay ms])
    refine ⟨h1, ?_⟩
    rw [h2, written_ramp_step, List.map_cons, List.append_assoc, List.singleton_append]

theorem scale_mono (c : Nat) (hc : c ≤ 255) (i j : Nat) (hj : j < 256) (hij : i ≤ j) :
    u32_mul c i / 255 ≤ u32_mul c j / 255 := by
  have b1 : c * j ≤ 255 * 255 := Nat.mul_le_mul hc (by omega)
  have b2 : c * i ≤ c * j := Nat.mul_le_mul_left _ hij
  unfold u32_mul
  rw [Nat.mod_eq_of_lt (by norm_num; omega), Nat.mod_eq_of_lt (by norm_num; omega)]
  exact Nat.div_le_div_right b2

theorem ramp_up_sorted (c : Nat) (hc : c ≤ 255) :
    ((List.range 256).map (fun i => u32_mul c i / 255)).Pairwise (· ≤ ·) := by
  rw [List.pairwise_map]
  refine List.Pairwise.imp_of_mem ?_ (List.pairwise_lt_range 256)
  intro a b _ hb hab
  exact scale_mono c hc a b (List.mem_range.mp hb) (Nat.le_of_lt hab)

theorem ramp_up_head (c : Nat) :
    ((List.range 256).map (fun i => u32_mul c i / 255)).head? = some 0 := by
  rw [List.range_succ_eq_map]
  simp [u32_mul]

theorem ramp_up_last (c : Nat) (hc : c ≤ 255) :
    ((List.range 256).map (fun i => u32_mul c i / 255)).getLast? = some c := by
  have b1 : c * 255 ≤ 255 * 255 := Nat.mul_le_mul_right _ hc
  have e : u32_mul c 255 / 255 = c := by
    unfold u32_mul
    rw [Nat.mod_eq_of_lt (by norm_num; omega), Nat.mul_div_cancel _ (by norm_num)]
  rw [List.range_succ, List.map_append, List.map_singleton, List.getLast?_concat, e]

theorem ramp_up_255 : (List.range 256).map (fun i => u32_mul 255 i / 255) = List.range 256 := by
  conv_rhs => rw [← List.map_id (List.range 256)]
  apply List.map_congr_left
  intro i hi
  have hi2 := List.mem_range.mp hi
  have b1 : 255 * i ≤ 255 * 255 := Nat.mul_le_mul_left _ (by omega)
  unfold u32_mul
  rw [Nat.mod_eq_of_lt (by norm_num; omega), Nat.mul_div_cancel_left _ (by norm_num)]
  rfl

/-! ## Claims on the ramps -/

/-- C6: for a colour with channels in `[0,255]` and a driver that succeeds, the
intensities `led_set_fade_in` writes to a channel of pixel 0 are non-decreasing,
start at 0 and end at the channel's full value (they are `0, 1, ..., 255` for a
channel of 255); `led_set_breath` writes that sequence followed by a
non-increasing one from the full value down to 0. -/
theorem ramp_sequences (strip : Driver) (hok : strip.ok) (color : led_color_t)
    (hr : color.red ≤ 255) (hg : color.green ≤ 255) (hb : color.blue ≤ 255) (ch : Channel) :
    ∃ up down : List Nat,
      written ch (led_set_fade_in strip color Machine.init).trace = up ∧
      up.Pairwise (· ≤ ·) ∧ up.head? = some 0 ∧ up.getLast? = some (ch.of_color color) ∧
      (ch.of_color color = 255 → up = List.range 256) ∧
      written ch (led_set_breath strip color Machine.init).trace = up ++ down ∧
      down.Pairwise (· ≥ ·) ∧ down.head? = some (ch.of_color color) ∧
      down.getLast? = some 0 := by
  have hc : ch.of_color color ≤ 255 := by cases ch <;> assumption
  refine ⟨(List.range 256).map (fun i => u32_mul (ch.of_color color) i / 255),
    ((List.range 256).map (fun i => u32_mul (ch.of_color color) i / 255)).reverse,
    ?_, ramp_up_sorted _ hc, ramp_up_head _, ramp_up_last _ hc, ?_, ?_, ?_, ?_, ?_⟩
  · have := (ramp_fold_ok strip hok color 20 ch (List.range 256) []).2
    simpa [led_set_fade_in, Machine.init, written] using this
  · intro h255
    rw [h255]
    exact ramp_up_255
  · obtain ⟨s1, w1⟩ := ramp_fold_ok strip hok color 10 ch (List.range 256) []
    unfold led_set_breath Machine.init
    generalize (List.range 256).foldl (fun m i => ramp_step strip color 10 i m)
      ⟨[], .running⟩ = m1 at s1 w1
    obtain ⟨t1, st1⟩ := m1
    simp only at s1 w1
    subst s1
    rw [(ramp_fold_ok strip hok color 10 ch (List.range 256).reverse t1).2, w1,
      List.map_reverse]
    simp [written]
  · rw [List.pairwise_reverse]
    exact ramp_up_sorted _ hc
  · rw [List.head?_reverse]
    exact ramp_up_last _ hc
  · rw [List.getLast?_reverse]
    exact ramp_up_head _

/-- Witness of C6 for the driver that always succeeds and the colour
`{255, 128, 0}`, on the red channel. -/
theorem ramp_sequences_witness :
    (always_ok.ok ∧ (255 : Nat) ≤ 255 ∧ (128 : Nat) ≤ 255 ∧ (0 : Nat) ≤ 255) ∧
    ∃ up down : List Nat,
      written .red (led_set_fade_in always_ok ⟨255, 128, 0⟩ Machine.init).trace = up ∧
      up.Pairwise (· ≤ ·) ∧ up.head? = some 0 ∧
      up.getLast? = some (Channel.red.of_color ⟨255, 128, 0⟩) ∧
      (Channel.red.of_color ⟨255, 128, 0⟩ = 255 → up = List.range 256) ∧
      written .red (led_set_breath always_ok ⟨255, 128, 0⟩ Machine.init).trace = up ++ down ∧
      down.Pairwise (· ≥ ·) ∧ down.head? = some (Channel.red.of_color ⟨255, 128, 0⟩) ∧
      down.getLast? = some 0 :=
  ⟨⟨fun _ => rfl, by decide, by decide, by decide⟩,
    ramp_sequences always_ok (fun _ => rfl) ⟨255, 128, 0⟩ (by decide) (by decide) (by decide)
      .red⟩

/-! ## Claims on `led_set_off` -/

/-- C8, as stated, fails: with a driver that succeeds `led_set_off` makes the
single call `clear(100)`; no refresh call is issued. -/
theorem led_set_off_counterexample :
    led_set_off always_ok Machine.init = ⟨[.clear 100], .running⟩ ∧
    ¬ ∃ c ∈ (led_set_off always_ok Machine.init).trace, c.isRefresh = true := by
  decide

/-- C8, amended: when the driver call succeeds, `led_set_off` issues exactly one
call, `clear` with timeout 100, and returns (the run goes on). -/
theorem led_set_off_clear (strip : Driver) (hok : strip.ok) (t : List Call) :
    led_set_off strip ⟨t, .running⟩ = ⟨t ++ [.clear 100], .running⟩ := by
  simp [led_set_off, ESP_ERROR_CHECK_ok strip hok]

/-- Witness of amended C8 for the driver that always succeeds, after a delay. -/
theorem led_set_off_clear_witness :
    always_ok.ok ∧
    led_set_off always_ok ⟨[.vTaskDelay 10], .running⟩
      = ⟨[.vTaskDelay 10] ++ [.clear 100], .running⟩ :=
  ⟨fun _ => rfl, led_set_off_clear always_ok (fun _ => rfl) [.vTaskDelay 10]⟩

/-! ## Fail-fast -/

theorem FailFast_init (strip : Driver) : FailFast strip Machine.init := by
  intro pre c post h
  simp [Machine.init] at h

theorem FailFast_append (strip : Driver) (t : List Call) (hf : FailFast strip ⟨t, .running⟩)
    (c : Call) (st : Status)
    (hst : c.isStrip = true → strip (t ++ [c]) = false → st = .aborted) :
    FailFast strip ⟨t ++ [c], st⟩ := by
  intro pre c1 post heq hs hfail
  rcases List.eq_nil_or_concat post with hnil | ⟨L, b, hL⟩
  · subst hnil
    have := List.append_inj' (show t ++ [c] = pre ++ [c1] from heq) rfl
    obtain ⟨e1, e2⟩ := this
    have e3 : c = c1 := by simpa using e2
    subst e1 e3
    exact ⟨rfl, hst hs hfail⟩
  · subst hL
    have h2 : t ++ [c] = (pre ++ c1 :: L) ++ [b] := by
      simpa [List.concat_eq_append] using heq
    obtain ⟨e1, _⟩ := List.append_inj' h2 rfl
    have := (hf pre c1 L e1 hs hfail).2
    simp at this

theorem FailFast_ESP_ERROR_CHECK (strip : Driver) (c : Call) (m : Machine)
    (hf : FailFast strip m) : FailFast strip (ESP_ERROR_CHECK strip c m) := by
  obtain ⟨t, st⟩ := m
  cases st
  case running =>
    refine FailFast_append strip t hf c _ ?_
    intro _ hfail
    simp [hfail]
  all_goals exact hf

theorem FailFast_vTaskDelay (strip : Driver) (ms : Nat) (m : Machine)
    (hf : FailFast strip m) : FailFast strip (vTaskDelay ms m) := by
  obtain ⟨t, st⟩ := m
  cases st
  case running =>
    refine FailFast_append strip t hf _ _ ?_
    intro hs
    simp [Call.isStrip] at hs
  all_goals exact hf

theorem FailFast_led_set_on (strip : Driver) (color : led_color_t) (m : Machine)
    (hf : FailFast strip m) : FailFast strip (led_set_on strip color m) :=
  FailFast_ESP_ERROR_CHECK _ _ _ (FailFast_ESP_ERROR_CHECK _ _ _ hf)

theorem FailFast_led_set_off (strip : Driver) (m : Machine)
    (hf : FailFast strip m) : FailFast strip (led_set_off strip m) :=
  FailFast_ESP_ERROR_CHECK _ _ _ hf

theorem FailFast_ramp_step (strip : Driver) (color : led_color_t) (ms i : Nat) (m : Machine)
    (hf : FailFast strip m) : FailFast strip (ramp_step strip color ms i m) :=
  FailFast_vTaskDelay _ _ _ (FailFast_ESP_ERROR_CHECK _ _ _ (FailFast_ESP_ERROR_CHECK _ _ _ hf))

theorem FailFast_ramp_fold (strip : Driver) (color : led_color_t) (ms : Nat) (l : List Nat) :
    ∀ m, FailFast strip m →
      FailFast strip (l.foldl (fun m i => ramp_step strip color ms i m) m) := by
  induction l with
  | nil => intro m hf; exact hf
  | cons i l ih =>
    intro m hf
    rw [List.foldl_cons]
    exact ih _ (FailFast_ramp_step strip color ms i m hf)

/-- C9: in each returning renderer (`led_set_on`, `led_set_off`,
`led_set_breath`, `led_set_fade_in`), whatever the driver does, a strip-driver
call (`set_pixel`, `refresh` or `clear`) that reports failure is the last call
of the trace and the run is aborted: no retry and no later call or delay. -/
theorem renderers_fail_fast (strip : Driver) (color : led_color_t) :
    FailFast strip (led_set_on strip color Machine.init) ∧
    FailFast strip (led_set_off strip Machine.init) ∧
    FailFast strip (led_set_breath strip color Machine.init) ∧
    FailFast strip (led_set_fade_in strip color Machine.init) :=
  ⟨FailFast_led_set_on strip color _ (FailFast_init strip),
   FailFast_led_set_off strip _ (FailFast_init strip),
   FailFast_ramp_fold strip color 10 _ _
     (FailFast_ramp_fold strip color 10 _ _ (FailFast_init strip)),
   FailFast_ramp_fold strip color 20 _ _ (FailFast_init strip)⟩

/-- An abort in `led_set_on`: when the pixel write (call number 0) fails, the
trace ends with that call and no refresh is made. -/
theorem led_set_on_abort_example :
    led_set_on (fails_at 0) ⟨255, 0, 0⟩ Machine.init
      = ⟨[.set_pixel 0 255 0 0], .aborted⟩ := by
  decide

/-! ## A clear comes first -/

theorem ClearInv_append (t : List Call) (h : ClearInv ⟨t, .running⟩) (c : Call) (st : Status) :
    ClearInv ⟨t ++ [c], st⟩ := by
  obtain ⟨hcf, hcl⟩ := h
  obtain ⟨c0, hc0, hc0c⟩ := hcl rfl
  refine ⟨?_, fun _ => ⟨c0, List.mem_append_left _ hc0, hc0c⟩⟩
  intro pre c1 post heq hs
  rcases List.eq_nil_or_concat post with hnil | ⟨L, b, hL⟩
  · subst hnil
    obtain ⟨e1, _⟩ := List.append_inj' (show t ++ [c] = pre ++ [c1] from heq) rfl
    subst e1
    exact ⟨c0, hc0, hc0c⟩
  · subst hL
    have h2 : t ++ [c] = (pre ++ c1 :: L) ++ [b] := by
      simpa [List.concat_eq_append] using heq
    obtain ⟨e1, _⟩ := List.append_inj' h2 rfl
    exact hcf pre c1 L e1 hs

theorem ClearInv_ESP_ERROR_CHECK (strip : Driver) (c : Call) (m : Machine) (h : ClearInv m) :
    ClearInv (ESP_ERROR_CHECK strip c m) := by
  obtain ⟨t, st⟩ := m
  cases st
  case running => exact ClearInv_append t h c _
  all_goals exact h

theorem ClearInv_vTaskDelay (ms : Nat) (m : Machine) (h : ClearInv m) :
    ClearInv (vTaskDelay ms m) := by
  obtain ⟨t, st⟩ := m
  cases st
  case running => exact ClearInv_append t h _ _
  all_goals exact h

theorem ClearInv_halt (m : Machine) (st : Status) (hst : st ≠ .running) (h : ClearInv m) :
    ClearInv ⟨m.trace, st⟩ :=
  ⟨h.1, fun hr => absurd hr hst⟩

theorem ClearInv_stop (m : Machine) (h : ClearInv m) : ClearInv m.stop := by
  obtain ⟨t, st⟩ := m
  cases st
  case running => exact ClearInv_halt _ _ (by decide) h
  all_goals exact h

theorem ClearInv_iterate (f : Machine → Machine) (hf : ∀ m, ClearInv m → ClearInv (f m))
    (n : Nat) : ∀ m, ClearInv m → ClearInv (f^[n] m) := by
  induction n with
  | zero => intro m h; exact h
  | succ n ih =>
    intro m h
    rw [Function.iterate_succ_apply']
    exact hf _ (ih m h)

theorem ClearInv_while_true (f : Machine → Machine) (hf : ∀ m, ClearInv m → ClearInv (f m))
    (fuel : Nat) (m : Machine) (h : ClearInv m) : ClearInv (while_true fuel f m) :=
  ClearInv_stop _ (ClearInv_iterate f hf fuel m h)

theorem ClearInv_led_set_on (strip : Driver) (color : led_color_t) (m : Machine)
    (h : ClearInv m) : ClearInv (led_set_on strip color m) :=
  ClearInv_ESP_ERROR_CHECK _ _ _ (ClearInv_ESP_ERROR_CHECK _ _ _ h)

theorem ClearInv_led_set_off (strip : Driver) (m : Machine) (h : ClearInv m) :
    ClearInv (led_set_off strip m) :=
  ClearInv_ESP_ERROR_CHECK _ _ _ h

theorem ClearInv_ramp_fold (strip : Driver) (color : led_color_t) (ms : Nat) (l : List Nat) :
    ∀ m, ClearInv m → ClearInv (l.foldl (fun m i => ramp_step strip color ms i m) m) := by
  induction l with
  | nil => intro m h; exact h
  | cons i l ih =>
    intro m h
    rw [List.foldl_cons]
    exact ih _ (ClearInv_vTaskDelay _ _
      (ClearInv_ESP_ERROR_CHECK _ _ _ (ClearInv_ESP_ERROR_CHECK _ _ _ h)))

theorem ClearInv_blink (strip : Driver) (color : led_color_t) (ms : Nat) (m : Machine)
    (h : ClearInv m) :
    ClearInv (m |> led_set_on strip color |> vTaskDelay ms
                |> led_set_off strip |> vTaskDelay ms) :=
  ClearInv_vTaskDelay _ _ (ClearInv_led_set_off _ _
    (ClearInv_vTaskDelay _ _ (ClearInv_led_set_on _ _ _ h)))

theorem ClearInv_rainbow_pixel (strip : Driver) (j : Nat) (st : RainbowState)
    (h : ClearInv st.m) : ClearInv (rainbow_pixel strip j st).m := by
  unfold rainbow_pixel
  split
  · simp only
    cases led_strip_hsv2rgb (rainbow_hue j st.start_rgb) 100 100 with
    | none => exact ClearInv_halt _ _ (by decide) h
    | some rgb => exact ClearInv_ESP_ERROR_CHECK _ _ _ h
  · exact h

theorem ClearInv_rainbow_pixels (strip : Driver) (l : List Nat) :
    ∀ st : RainbowState, ClearInv st.m →
      ClearInv (l.foldl (fun st j => rainbow_pixel strip j st) st).m := by
  induction l with
  | nil => intro st h; exact h
  | cons j l ih =>
    intro st h
    rw [List.foldl_cons]
    exact ih _ (ClearInv_rainbow_pixel strip j st h)

theorem ClearInv_rainbow_pass (strip : Driver) (i : Nat) (st : RainbowState)
    (h : ClearInv st.m) : ClearInv (rainbow_pass strip i st).m :=
  ClearInv_vTaskDelay _ _ (ClearInv_ESP_ERROR_CHECK _ _ _ (ClearInv_rainbow_pixels strip _ st h))

theorem ClearInv_rainbow_passes (strip : Driver) (l : List Nat) :
    ∀ st : RainbowState, ClearInv st.m →
      ClearInv (l.foldl (fun st i => rainbow_pass strip i st) st).m := by
  induction l with
  | nil => intro st h; exact h
  | cons i l ih =>
    intro st h
    rw [List.foldl_cons]
    exact ih _ (ClearInv_rainbow_pass strip i st h)

theorem ClearInv_rainbow_iteration (strip : Driver) (st : RainbowState)
    (h : ClearInv st.m) : ClearInv (rainbow_iteration strip st).m := by
  have h3 := ClearInv_rainbow_passes strip (List.range 3) st h
  unfold rainbow_iteration
  simp only
  split
  · exact ClearInv_vTaskDelay _ _ h3
  · exact h3

theorem ClearInv_rainbow_at (strip : Driver) (k : Nat) (m : Machine) (h : ClearInv m) :
    ClearInv (rainbow_at strip k m).m := by
  induction k with
  | zero => exact h
  | succ k ih =>
    unfold rainbow_at at ih ⊢
    rw [Function.iterate_succ_apply']
    exact ClearInv_rainbow_iteration strip _ ih

theorem ClearInv_dispatch (strip : Driver) (effect : led_effect_t) (color : led_color_t)
    (fuel : Nat) (m : Machine) (h : ClearInv m) :
    ClearInv (dispatch strip effect color fuel m) := by
  cases effect
  case LED_EFFECT_ON => exact ClearInv_led_set_on _ _ _ h
  case LED_EFFECT_OFF => exact ClearInv_led_set_off _ _ h
  case LED_EFFECT_BREATH =>
    exact ClearInv_ramp_fold _ _ _ _ _ (ClearInv_ramp_fold _ _ _ _ _ h)
  case LED_EFFECT_FADE_IN => exact ClearInv_ramp_fold _ _ _ _ _ h
  case LED_EFFECT_BLINK_SLOW =>
    exact ClearInv_while_true _ (fun m hm => ClearInv_blink strip color 500 m hm) _ _ h
  case LED_EFFECT_BLINK_FAST =>
    exact ClearInv_while_true _ (fun m hm => ClearInv_blink strip color 100 m hm) _ _ h
  case LED_EFFECT_RAINBOW => exact ClearInv_stop _ (ClearInv_rainbow_at strip fuel m h)

theorem NoPixel_append (t : List Call) (h : NoPixel ⟨t, .running⟩) (c : Call)
    (hc : c.isSetPixel = false) (st : Status) : NoPixel ⟨t ++ [c], st⟩ := by
  intro c1 hc1
  rcases List.mem_append.mp hc1 with h1 | h1
  · exact h c1 h1
  · rw [List.mem_singleton.mp h1]; exact hc

theorem NoPixel_ESP_ERROR_CHECK (strip : Driver) (c : Call) (hc : c.isSetPixel = false)
    (m : Machine) (h : NoPixel m) : NoPixel (ESP_ERROR_CHECK strip c m) := by
  obtain ⟨t, st⟩ := m
  cases st
  case running => exact NoPixel_append t h c hc _
  all_goals exact h

theorem NoPixel_led_strip_new (strip : Driver) (m : Machine) (h : NoPixel m) :
    NoPixel (led_strip_new_rmt_ws2812 strip m) := by
  obtain ⟨t, st⟩ := m
  cases st
  case running => exact NoPixel_append t h .led_strip_new_rmt_ws2812 rfl _
  all_goals exact h

theorem ClearInv_first_clear (strip : Driver) (m : Machine) (h : NoPixel m) :
    ClearInv (ESP_ERROR_CHECK strip (.clear 100) m) := by
  have h2 := NoPixel_ESP_ERROR_CHECK strip (.clear 100) rfl m h
  refine ⟨?_, ?_⟩
  · intro pre c post heq hs
    have := h2 c (by rw [heq]; simp)
    rw [this] at hs
    cases hs
  · obtain ⟨t, st⟩ := m
    cases st
    case running =>
      intro _
      exact ⟨.clear 100, by simp [ESP_ERROR_CHECK], rfl⟩
    all_goals
      intro hr
      simp [ESP_ERROR_CHECK] at hr

/-- For every effect and whatever the driver does, every pixel write of the task
comes after a clear of the strip. -/
theorem ws2812_control_task_clear_first (strip : Driver) (effect : led_effect_t) (fuel : Nat) :
    ClearFirst (ws2812_control_task strip effect fuel).trace := by
  have h0 : NoPixel Machine.init := by
    intro c hc
    simp [Machine.init] at hc
  have h1 := NoPixel_led_strip_new strip _
    (NoPixel_ESP_ERROR_CHECK strip .rmt_driver_install rfl _
      (NoPixel_ESP_ERROR_CHECK strip .rmt_config rfl _ h0))
  have h2 := ClearInv_first_clear strip _ h1
  exact (ClearInv_while_true _
    (fun m hm => ClearInv_vTaskDelay 10 _ (ClearInv_dispatch strip effect ⟨255, 0, 0⟩ fuel m hm))
    fuel _ h2).1

theorem off_iterate_ok (strip : Driver) (hok : strip.ok) (color : led_color_t) (fuel n : Nat) :
    ∀ t : List Call, ∃ rest,
      (fun m => m |> dispatch strip .LED_EFFECT_OFF color fuel |> vTaskDelay 10)^[n]
        ⟨t, .running⟩ = ⟨t ++ rest, .running⟩ := by
  induction n with
  | zero => intro t; exact ⟨[], by simp⟩
  | succ n ih =>
    intro t
    obtain ⟨rest, hrest⟩ := ih t
    rw [Function.iterate_succ_apply', hrest]
    refine ⟨rest ++ [.clear 100, .vTaskDelay 10], ?_⟩
    simp [dispatch, led_set_off, ESP_ERROR_CHECK_ok strip hok, vTaskDelay_running]

/-! ## Claims on the dispatcher -/

/-- C10: in `ws2812_control_task` with the effect tag off and a driver that
succeeds, for every bound on the number of loop iterations (hence on every
finite initial segment of the run) every `set_pixel` call of the trace has a
`clear` call before it, and the first strip-driver call of the trace is the
clear. -/
theorem ws2812_control_task_off_clear_first (strip : Driver) (hok : strip.ok) (fuel : Nat) :
    ClearFirst (ws2812_control_task strip .LED_EFFECT_OFF fuel).trace ∧
    ((ws2812_control_task strip .LED_EFFECT_OFF fuel).trace.filter Call.isStrip).head?
      = some (.clear 100) := by
  refine ⟨ws2812_control_task_clear_first strip .LED_EFFECT_OFF fuel, ?_⟩
  obtain ⟨rest, hrest⟩ := off_iterate_ok strip hok ⟨255, 0, 0⟩ fuel fuel
    [.rmt_config, .rmt_driver_install, .led_strip_new_rmt_ws2812, .clear 100]
  simp only [ws2812_control_task, while_true, Machine.init, led_strip_new_rmt_ws2812,
    ESP_ERROR_CHECK, hok _, if_true, List.nil_append, List.cons_append]
  simp only [List.cons_append, List.nil_append] at hrest
  rw [hrest]
  simp [Machine.stop, Call.isStrip]

/-- Witness of C10 for the driver that always succeeds, at three iterations. -/
theorem ws2812_control_task_off_clear_first_witness :
    always_ok.ok ∧
    ClearFirst (ws2812_control_task always_ok .LED_EFFECT_OFF 3).trace ∧
    ((ws2812_control_task always_ok .LED_EFFECT_OFF 3).trace.filter Call.isStrip).head?
      = some (.clear 100) :=
  ⟨fun _ => rfl, ws2812_control_task_off_clear_first always_ok (fun _ => rfl) 3⟩

/-! ## The rainbow loop with a driver that succeeds -/

theorem hsv2rgb_some_at_full (h : Nat) :
    ∃ r g b, led_strip_hsv2rgb h 100 100 = some (r, g, b) :=
  ⟨_, _, _, led_strip_hsv2rgb_eq h 100 100 le_rfl le_rfl⟩

theorem rainbow_pixel_ok (strip : Driver) (hok : strip.ok) (j r0 g0 b0 h0 s0 : Nat)
    (t : List Call) (r g b : Nat)
    (hrgb : led_strip_hsv2rgb (rainbow_hue j s0) 100 100 = some (r, g, b)) :
    rainbow_pixel strip j ⟨r0, g0, b0, h0, s0, ⟨t, .running⟩⟩
      = ⟨r, g, b, rainbow_hue j s0, s0, ⟨t ++ [.set_pixel j r g b], .running⟩⟩ := by
  simp [rainbow_pixel, hrgb, ESP_ERROR_CHECK_ok strip hok]

theorem rainbow_pass_zero_ok (strip : Driver) (hok : strip.ok) (r0 g0 b0 h0 s0 : Nat)
    (t : List Call) (r g b : Nat)
    (hrgb : led_strip_hsv2rgb (rainbow_hue 0 s0) 100 100 = some (r, g, b)) :
    rainbow_pass strip 0 ⟨r0, g0, b0, h0, s0, ⟨t, .running⟩⟩
      = ⟨r, g, b, rainbow_hue 0 s0, s0,
          ⟨t ++ [.set_pixel 0 r g b, .refresh 100, .vTaskDelay 80], .running⟩⟩ := by
  have hl : (List.range CONFIG_EXAMPLE_STRIP_LED_NUMBER).filter
      (fun j => decide (0 ≤ j ∧ (j - 0) % 3 = 0)) = [0] := by decide
  unfold rainbow_pass
  rw [hl]
  simp [rainbow_pixel_ok strip hok 0 r0 g0 b0 h0 s0 t r g b hrgb, ESP_ERROR_CHECK_ok strip hok,
    vTaskDelay_running, EXAMPLE_CHASE_SPEED_MS]

theorem rainbow_pass_succ_ok (strip : Driver) (hok : strip.ok) (i r0 g0 b0 h0 s0 : Nat)
    (t : List Call) :
    rainbow_pass strip (i + 1) ⟨r0, g0, b0, h0, s0, ⟨t, .running⟩⟩
      = ⟨r0, g0, b0, h0, s0, ⟨t ++ [.refresh 100, .vTaskDelay 80], .running⟩⟩ := by
  have hl : (List.range CONFIG_EXAMPLE_STRIP_LED_NUMBER).filter
      (fun j => decide (i + 1 ≤ j ∧ (j - (i + 1)) % 3 = 0)) = [] := by
    simp [CONFIG_EXAMPLE_STRIP_LED_NUMBER]
  unfold rainbow_pass
  rw [hl]
  simp [ESP_ERROR_CHECK_ok strip hok, vTaskDelay_running, EXAMPLE_CHASE_SPEED_MS]

theorem rainbow_iteration_ok (strip : Driver) (hok : strip.ok) (r0 g0 b0 h0 s0 : Nat)
    (t : List Call) (r g b : Nat)
    (hrgb : led_strip_hsv2rgb (rainbow_hue 0 s0) 100 100 = some (r, g, b)) :
    rainbow_iteration strip ⟨r0, g0, b0, h0, s0, ⟨t, .running⟩⟩
      = ⟨r, g, b, rainbow_hue 0 s0, (s0 + 60) % 2 ^ 16,
          ⟨t ++ [.set_pixel 0 r g b, .refresh 100, .vTaskDelay 80, .refresh 100,
            .vTaskDelay 80, .refresh 100, .vTaskDelay 80, .vTaskDelay 100], .running⟩⟩ := by
  have h3 : List.range 3 = [0, 0 + 1, 1 + 1] := by decide
  unfold rainbow_iteration
  rw [h3]
  simp only [List.foldl_cons, List.foldl_nil]
  rw [rainbow_pass_zero_ok strip hok r0 g0 b0 h0 s0 t r g b hrgb,
    rainbow_pass_succ_ok strip hok, rainbow_pass_succ_ok strip hok]
  simp [vTaskDelay_running]

theorem rainbow_at_ok (strip : Driver) (hok : strip.ok) (k : Nat) :
    ∃ r0 g0 b0 h0 t,
      rainbow_at strip k Machine.init = ⟨r0, g0, b0, h0, 60 * k % 2 ^ 16, ⟨t, .running⟩⟩ := by
  induction k with
  | zero => exact ⟨0, 0, 0, 0, [], rfl⟩
  | succ k ih =>
    obtain ⟨r0, g0, b0, h0, t, hk⟩ := ih
    obtain ⟨r, g, b, hrgb⟩ := hsv2rgb_some_at_full (rainbow_hue 0 (60 * k % 2 ^ 16))
    unfold rainbow_at at hk ⊢
    rw [Function.iterate_succ_apply', hk,
      rainbow_iteration_ok strip hok r0 g0 b0 h0 _ t r g b hrgb]
    have e : (60 * k % 2 ^ 16 + 60) % 2 ^ 16 = 60 * (k + 1) % 2 ^ 16 := by omega
    rw [e]
    exact ⟨_, _, _, _, _, rfl⟩

theorem rainbow_hue_zero (s : Nat) : rainbow_hue 0 (s % 2 ^ 16) = s % 2 ^ 16 := by
  simp [rainbow_hue, CONFIG_EXAMPLE_STRIP_LED_NUMBER]

/-- Pass 0 of iteration `k` with a driver that succeeds: the hue assigned to
pixel 0 is `60 * k` on `uint16_t`, and the pixel written is its conversion. -/
theorem rainbow_pass0_ok (strip : Driver) (hok : strip.ok) (k : Nat) :
    ∃ r g b, led_strip_hsv2rgb (60 * k % 2 ^ 16) 100 100 = some (r, g, b) ∧
      (rainbow_pass0 strip k).hue = 60 * k % 2 ^ 16 ∧
      (rainbow_pass0 strip k).red = r ∧ (rainbow_pass0 strip k).green = g ∧
      (rainbow_pass0 strip k).blue = b ∧
      (rainbow_pass0 strip k).m.trace = (rainbow_at strip k Machine.init).m.trace
        ++ [.set_pixel 0 r g b, .refresh 100, .vTaskDelay 80] := by
  obtain ⟨r0, g0, b0, h0, t, hk⟩ := rainbow_at_ok strip hok k
  obtain ⟨r, g, b, hrgb⟩ := hsv2rgb_some_at_full (60 * k % 2 ^ 16)
  have hrgb2 := hrgb
  rw [← rainbow_hue_zero] at hrgb2
  refine ⟨r, g, b, hrgb, ?_⟩
  unfold rainbow_pass0
  rw [hk, rainbow_pass_zero_ok strip hok r0 g0 b0 h0 _ t r g b hrgb2, rainbow_hue_zero]
  exact ⟨rfl, rfl, rfl, rfl, rfl⟩

/-! ## Claims on the rainbow -/

/-- C7, as stated, fails: `start_rgb` wraps at `2 ^ 16`, which is not a multiple
of 360. At iteration 1092 the hue of pixel 0 on pass 0 is 65520 (0 modulo 360,
written as red); six advances later, at iteration 1098, it is 344, written as
`(255, 0, 68)`. -/
theorem rainbow_period_counterexample :
    (rainbow_pass0 always_ok 1092).hue = 65520 ∧
    (rainbow_pass0 always_ok (1092 + 6)).hue = 344 ∧
    ¬ ((rainbow_pass0 always_ok (1092 + 6)).hue % 360
        = (rainbow_pass0 always_ok 1092).hue % 360) ∧
    ((rainbow_pass0 always_ok 1092).red, (rainbow_pass0 always_ok 1092).green,
      (rainbow_pass0 always_ok 1092).blue) = (255, 0, 0) ∧
    ((rainbow_pass0 always_ok (1092 + 6)).red, (rainbow_pass0 always_ok (1092 + 6)).green,
      (rainbow_pass0 always_ok (1092 + 6)).blue) = (255, 0, 68) := by
  obtain ⟨r1, g1, b1, c1, hh1, hr1, hg1, hb1, _⟩ :=
    rainbow_pass0_ok always_ok (fun _ => rfl) 1092
  obtain ⟨r2, g2, b2, c2, hh2, hr2, hg2, hb2, _⟩ :=
    rainbow_pass0_ok always_ok (fun _ => rfl) (1092 + 6)
  have e1 : led_strip_hsv2rgb (60 * 1092 % 2 ^ 16) 100 100 = some (255, 0, 0) := by decide!
  have e2 : led_strip_hsv2rgb (60 * (1092 + 6) % 2 ^ 16) 100 100 = some (255, 0, 68) := by
    decide!
  rw [e1] at c1
  rw [e2] at c2
  simp only [Option.some.injEq, Prod.mk.injEq] at c1 c2
  rw [hh1, hh2, hr1, hg1, hb1, hr2, hg2, hb2]
  obtain ⟨a1, a2, a3⟩ := c1
  obtain ⟨a4, a5, a6⟩ := c2
  subst a1 a2 a3 a4 a5 a6
  decide

/-- C7, amended: with a driver that succeeds, for every iteration `k` at which
`start_rgb` does not wrap around `2 ^ 16` during the next 6 advances
(`60 * k mod 2 ^ 16 + 360 < 2 ^ 16`, in particular every `k ≤ 1086`), the hue
assigned to pixel 0 on pass 0 at iteration `k + 6` equals the one at iteration
`k` modulo 360, and both are converted to the same `(r, g, b)`, which is the
pixel written on that pass. -/
theorem rainbow_period (strip : Driver) (hok : strip.ok) (k : Nat)
    (hk : 60 * k % 2 ^ 16 + 360 < 2 ^ 16) :
    (rainbow_pass0 strip (k + 6)).hue % 360 = (rainbow_pass0 strip k).hue % 360 ∧
    ∃ r g b,
      led_strip_hsv2rgb (rainbow_pass0 strip k).hue 100 100 = some (r, g, b) ∧
      led_strip_hsv2rgb (rainbow_pass0 strip (k + 6)).hue 100 100 = some (r, g, b) ∧
      (rainbow_pass0 strip k).m.trace = (rainbow_at strip k Machine.init).m.trace
        ++ [.set_pixel 0 r g b, .refresh 100, .vTaskDelay 80] ∧
      (rainbow_pass0 strip (k + 6)).m.trace = (rainbow_at strip (k + 6) Machine.init).m.trace
        ++ [.set_pixel 0 r g b, .refresh 100, .vTaskDelay 80] := by
  obtain ⟨r1, g1, b1, c1, hh1, _, _, _, t1⟩ := rainbow_pass0_ok strip hok k
  obtain ⟨r2, g2, b2, c2, hh2, _, _, _, t2⟩ := rainbow_pass0_ok strip hok (k + 6)
  have e : 60 * (k + 6) % 2 ^ 16 = 60 * k % 2 ^ 16 + 360 := by omega
  have c3 : led_strip_hsv2rgb (60 * (k + 6) % 2 ^ 16) 100 100 = some (r1, g1, b1) := by
    rw [e, led_strip_hsv2rgb_eq _ 100 100 le_rfl le_rfl, Nat.add_mod_right,
      ← led_strip_hsv2rgb_eq _ 100 100 le_rfl le_rfl, c1]
  rw [c3] at c2
  simp only [Option.some.injEq, Prod.mk.injEq] at c2
  obtain ⟨a1, a2, a3⟩ := c2
  subst a1 a2 a3
  refine ⟨?_, r1, g1, b1, ?_, ?_, t1, t2⟩
  · rw [hh1, hh2, e, Nat.add_mod_right]
  · rw [hh1]; exact c1
  · rw [hh2]; exact c3

/-- Witness of amended C7 for the driver that always succeeds at `k = 1086`, the
last iteration before the first wrap of `start_rgb`. -/
theorem rainbow_period_witness :
    (always_ok.ok ∧ 60 * 1086 % 2 ^ 16 + 360 < 2 ^ 16) ∧
    (rainbow_pass0 always_ok (1086 + 6)).hue % 360 = (rainbow_pass0 always_ok 1086).hue % 360 :=
  ⟨⟨fun _ => rfl, by decide⟩, (rainbow_period always_ok (fun _ => rfl) 1086 (by decide)).1⟩

end WS2812
